import Mathlib

/-!
Verification of the pubarchiver article-archiving pipeline.

Shallow embedding of the core data model and operations of pubarchiver:
the article records, the index-entry parsing performed by the journal
adapters (`pubarchiver/journals/micropublication.py`,
`pubarchiver/journals/prompt.py`), the DataCite metadata-merge transform,
and the per-article save pipeline of `pubarchiver/__main__.py`
(`MainBody._save_articles`, `_save_article_portico`, `_save_article_pmc`,
failure counting in `MainBody.run` and the exit code computed in `main`).

External effects (network calls, file downloads, DTD validation, image
conversion) are modelled by boolean or data-valued oracles describing
their outcomes; dictionary manipulation on the xmltodict documents is
modelled by insertion-ordered association lists with Python dict
semantics, where `Option`/`Except` results stand for Python KeyError and
TypeError exceptions.
-/

/-- Article record from `pubarchiver/__main__.py`:
`recordclass('Article', 'doi date title pdf jats image status')`. -/
structure MainArticle where
  doi : String
  date : String
  title : String
  pdf : String
  jats : String
  image : String
  status : String
deriving DecidableEq, Repr

/-- Article record from `pubarchiver/article.py`:
`recordclass('Article', 'issn doi date title basename pdf jats image status')`. -/
structure Article where
  issn : String
  doi : String
  date : String
  title : String
  basename : String
  pdf : String
  jats : String
  image : String
  status : String
deriving DecidableEq, Repr

/-- Index of the last occurrence of a slash in a list of characters,
computing the value of the Python expression `doi.rfind('/')` when the
character is present (`none` corresponds to the Python return value -1). -/
def rfindSlash : List Char → Option Nat
  | [] => none
  | c :: rest =>
    match rfindSlash rest with
    | some i => some (i + 1)
    | none => if c = '/' then some 0 else none

/-- `tail_of_doi` from `pubarchiver/journals/micropublication.py` (the same
function appears in `prompt.py` and `pubarchiver/__main__.py`):
`slash = doi.rfind('/'); return doi[slash + 1:]`.  When no slash occurs,
Python rfind returns -1 and the slice `doi[0:]` is the whole string. -/
def tail_of_doi (doi : String) : String :=
  match rfindSlash doi.data with
  | some i => ⟨doi.data.drop (i + 1)⟩
  | none => doi

/-- Adapter constant `Micropublication.issn` from
`pubarchiver/journals/micropublication.py`. -/
def Micropublication.issn : String := "2578-9430"

/-- Adapter constant `Micropublication.uses_jats` from
`pubarchiver/journals/micropublication.py`. -/
def Micropublication.uses_jats : Bool := true

/-- Adapter constant `Prompt.issn` from `pubarchiver/journals/prompt.py`. -/
def Prompt.issn : String := "2578-9430"

/-- Adapter constant `Prompt.uses_jats` from
`pubarchiver/journals/prompt.py`. -/
def Prompt.uses_jats : Bool := false

/-- Adapter constant `Prompt.name` from `pubarchiver/journals/prompt.py`. -/
def Prompt.journalName : String := "Prompt"

/-- One `<article>` element of the micropublication index after field
extraction: `field_text` yields an empty string for an absent element, and
`date-published` is absent (`none`) or carries year/month/day texts. -/
structure MicropubEntry where
  doi : String
  pdf : String
  jats : String
  image : String
  title : String
  datePublished : Option (String × String × String)
deriving DecidableEq, Repr

/-- Python `s.rjust(2, '0')`: left-pad with zeros to width two. -/
def rjust2 (s : String) : String :=
  if s.length < 2 then String.mk (List.replicate (2 - s.length) '0') ++ s else s

/-- Date string built by `Micropublication._article_tuples`:
`year + '-' + month.rjust(2, '0') + '-' + day.rjust(2, '0')` when the
`date-published` element is present, else the empty string. -/
def micropubDateString : Option (String × String × String) → String
  | some (y, m, d) => y ++ "-" ++ rjust2 m ++ "-" ++ rjust2 d
  | none => ""

/-- One iteration of the parse loop in `Micropublication._article_tuples`:
build the date, compute `basename = tail_of_doi(doi)`, and set
`status = 'complete' if all([pdf, jats, doi, title, date]) else 'incomplete'`
(Python truthiness of a string is non-emptiness). -/
def micropubParseEntry (e : MicropubEntry) : Article :=
  let date := micropubDateString e.datePublished
  let basename := tail_of_doi e.doi
  let status :=
    if e.pdf ≠ "" ∧ e.jats ≠ "" ∧ e.doi ≠ "" ∧ e.title ≠ "" ∧ date ≠ ""
    then "complete" else "incomplete"
  ⟨Micropublication.issn, e.doi, date, e.title, basename, e.pdf, e.jats, e.image, status⟩

/-- One Crossref work item kept by `Prompt.all_articles` (items lacking a
`published-online` date are skipped before reaching the record
construction): the DOI, the first title, the `date-parts` of the online
publication date, and the PDF link selected by `pdf_link`. -/
structure PromptEntry where
  doi : String
  title : String
  dateParts : List Nat
  pdf : String
deriving DecidableEq, Repr

/-- Python `format(x, '02')` for a natural number. -/
def format02 (n : Nat) : String := rjust2 (toString n)

/-- Date string built by `Prompt.all_articles`:
`'-'.join(format(x, '02') for x in online['date-parts'][0])`. -/
def promptDateString (parts : List Nat) : String :=
  String.intercalate "-" (parts.map format02)

/-- One iteration of the loop in `Prompt.all_articles`: `jats` and `image`
are empty strings, `basename = tail_of_doi(doi)`, and
`status = 'complete' if all([pdf, doi, title, date]) else 'incomplete'`. -/
def promptParseEntry (e : PromptEntry) : Article :=
  let date := promptDateString e.dateParts
  let basename := tail_of_doi e.doi
  let status :=
    if e.pdf ≠ "" ∧ e.doi ≠ "" ∧ e.title ≠ "" ∧ date ≠ ""
    then "complete" else "incomplete"
  ⟨Prompt.issn, e.doi, date, e.title, basename, e.pdf, "", "", status⟩

/-- The list-level result of `Micropublication._article_tuples`: entries
whose per-entry extraction raises are skipped by the inner try/except
(modelled here as `none` elements); the parsed articles are accumulated in
index order and the function returns
`sorted(articles, key = lambda item: item.date)`.  Python sorted is a
stable comparison sort on the key, as is `List.mergeSort`, so the two
agree as functions of the accumulated list. -/
def micropub_article_tuples (entries : List (Option MicropubEntry)) : List Article :=
  List.mergeSort ((entries.filterMap id).map micropubParseEntry)
    (fun a b => decide (a.date ≤ b.date))

/-- Outcomes of the external download, validation and metadata-resolution
calls made while saving one article (`download_file`, `valid_xml` and
`MainBody._metadata_xml` in `pubarchiver/__main__.py`). -/
structure SaveEnv where
  metadataOk : Bool
  pdfOk : Bool
  jatsOk : Bool
  jatsValid : Bool
  imageOk : Bool
deriving DecidableEq, Repr

/-- Python `s.startswith(pre)`, evaluated on the character lists. -/
def startswith (s pre : String) : Bool := pre.data.isPrefixOf s.data

/-- Kinds of files an article save step can leave on disk. -/
inductive FileKind where
  | metadataXml
  | pdfFile
  | jatsFile
  | tiffFile
  | zipFile
deriving DecidableEq, Repr

/-- `MainBody._save_article_portico` from `pubarchiver/__main__.py`, as a
function from the download/validation outcomes to the updated article and
the files left on disk.  The metadata XML is written first; the PDF is
downloaded (on failure `status = 'failed-pdf-download'` and execution
continues); the JATS file is downloaded (on failure
`status = 'failed-jats-download'`); when validation is enabled a failed
validation sets `status = 'failed-jats-validation'`; when the article has
an image URL the image is downloaded, converted to TIFF and the original
deleted (on download failure `status = 'failed-image-download'`). -/
def save_article_portico (doValidate : Bool) (env : SaveEnv) (a : MainArticle) :
    MainArticle × List FileKind :=
  let files := [FileKind.metadataXml]
  let sf1 :=
    if env.pdfOk then (a.status, files ++ [FileKind.pdfFile])
    else ("failed-pdf-download", files)
  let sf2 :=
    if env.jatsOk then (sf1.1, sf1.2 ++ [FileKind.jatsFile])
    else ("failed-jats-download", sf1.2)
  let st3 := if doValidate ∧ ¬ env.jatsValid then "failed-jats-validation" else sf2.1
  if a.image ≠ "" then
    if env.imageOk then ({ a with status := st3 }, sf2.2 ++ [FileKind.tiffFile])
    else ({ a with status := "failed-image-download" }, sf2.2)
  else ({ a with status := st3 }, sf2.2)

/-- The files successfully downloaded by `MainBody._save_article_pmc`
before the zip step: the PDF and JATS files when their downloads succeed,
and the converted TIFF when an image URL is present and its download
succeeds. -/
def pmc_downloaded_files (env : SaveEnv) (a : MainArticle) : List FileKind :=
  (if env.pdfOk then [FileKind.pdfFile] else []) ++
    (if env.jatsOk then [FileKind.jatsFile] else []) ++
      (if a.image ≠ "" ∧ env.imageOk then [FileKind.tiffFile] else [])

/-- `MainBody._save_article_pmc` from `pubarchiver/__main__.py`: download
PDF, JATS and image exactly as in the portico variant (each failure
overwriting `status`), then, when zipping is enabled and
`not article.status.startswith('failed')`, create the per-article ZIP
archive and delete the component files; otherwise leave the downloaded
files in place.  The result is the updated article, the files left on
disk, and whether the ZIP was created. -/
def save_article_pmc (doValidate zipArticles : Bool) (env : SaveEnv) (a : MainArticle) :
    MainArticle × List FileKind × Bool :=
  let st1 := if env.pdfOk then a.status else "failed-pdf-download"
  let st2 := if env.jatsOk then st1 else "failed-jats-download"
  let st3 := if doValidate ∧ ¬ env.jatsValid then "failed-jats-validation" else st2
  let st4 :=
    if a.image ≠ "" then
      if env.imageOk then st3 else "failed-image-download"
    else st3
  let files := pmc_downloaded_files env a
  if zipArticles then
    if startswith st4 "failed" then ({ a with status := st4 }, files, false)
    else ({ a with status := st4 }, [FileKind.zipFile], true)
  else ({ a with status := st4 }, files, false)

/-- The two output structures accepted by `MainBody._save_articles`. -/
inductive OutputStructure where
  | pmc
  | portico
deriving DecidableEq, Repr

/-- The per-article body of the loop in `MainBody._save_articles`: four
guards in fixed order (`doi` empty, `pdf` empty, `jats` empty, metadata
resolution returning nothing), each setting the corresponding `missing-*`
status and continuing to the next article, followed by the save step for
the selected output structure.  The second component is the list of files
written for the article. -/
def process_article (doValidate zipArticles : Bool) (struct : OutputStructure)
    (env : SaveEnv) (a : MainArticle) : MainArticle × List FileKind :=
  if a.doi = "" then ({ a with status := "missing-doi" }, [])
  else if a.pdf = "" then ({ a with status := "missing-pdf" }, [])
  else if a.jats = "" then ({ a with status := "missing-jats" }, [])
  else if ¬ env.metadataOk then ({ a with status := "missing-datacite" }, [])
  else
    match struct with
    | .pmc =>
      let r := save_article_pmc doValidate zipArticles env a
      (r.1, r.2.1)
    | .portico => save_article_portico doValidate env a

/-- The whole-list effect of `MainBody._save_articles` on the article
statuses: each article is processed in order with the outcome of its own
external calls given by the oracle `envOf`. -/
def save_articles (doValidate zipArticles : Bool) (struct : OutputStructure)
    (envOf : MainArticle → SaveEnv) (articles : List MainArticle) : List MainArticle :=
  articles.map (fun a => (process_article doValidate zipArticles struct (envOf a) a).1)

/-- Failure counting at the end of `MainBody.run`:
`self.failures = sum(a.status.startswith('fail') for a in articles)`. -/
def failures (articles : List MainArticle) : Nat :=
  (articles.map (fun a => if startswith a.status "fail" then 1 else 0)).sum

/-- The exit code computed in `main`:
`exit(100 + body.failures if body.failures > 0 else 0)`. -/
def main_exit_code (n : Nat) : Nat := if n > 0 then 100 + n else 0

/-- The four `failed-*` statuses a save step can assign. -/
def failedStatuses : List String :=
  ["failed-pdf-download", "failed-jats-download",
   "failed-jats-validation", "failed-image-download"]

/-- Every status an article can carry when `MainBody.run` counts failures:
the two parse-time statuses, the four guard statuses, and the four
download/validation failure statuses. -/
def terminalStatuses : List String :=
  ["complete", "incomplete", "missing-doi", "missing-pdf", "missing-jats",
   "missing-datacite"] ++ failedStatuses

/-- A value in an xmltodict document: a string, an integer (the `volume`
field becomes one), an insertion-ordered dictionary, or a list. -/
inductive JVal where
  | s (v : String)
  | i (v : Int)
  | obj (fields : List (String × JVal))
  | arr (elems : List JVal)

/-- Python dict assignment `m[k] = v` on an insertion-ordered dictionary:
update the entry in place when the key exists, append otherwise. -/
def setKey : List (String × JVal) → String → JVal → List (String × JVal)
  | [], k, v => [(k, v)]
  | (k', v') :: rest, k, v =>
    if k' = k then (k', v) :: rest else (k', v') :: setKey rest k v

/-- Python dict lookup `m[k]` (and the test `k in m` via `isSome`). -/
def getKey : List (String × JVal) → String → Option JVal
  | [], _ => none
  | (k', v') :: rest, k => if k' = k then some v' else getKey rest k

/-- Python `m.pop(k)`: the removed value and the remaining dictionary;
`none` models the KeyError raised when the key is absent. -/
def popKey : List (String × JVal) → String → Option (JVal × List (String × JVal))
  | [], _ => none
  | (k', v') :: rest, k =>
    if k' = k then some (v', rest)
    else
      match popKey rest k with
      | some (v, rest') => some (v, (k', v') :: rest')
      | none => none

/-- Accumulate decimal digits of a character list into a number; `none`
when a non-digit occurs. -/
def digitsToNatAux : List Char → Nat → Option Nat
  | [], acc => some acc
  | c :: rest, acc =>
    if c.isDigit then digitsToNatAux rest (acc * 10 + (c.toNat - 48)) else none

/-- Parse a non-empty all-digit character list as a number. -/
def digitsToNat : List Char → Option Nat
  | [] => none
  | l => digitsToNatAux l 0

/-- Python `int(s)` on a decimal string (optional leading minus);
`none` models the ValueError raised on anything else. -/
def pyIntOfString (s : String) : Option Int :=
  match s.data with
  | '-' :: rest => (digitsToNat rest).map (fun n => -(n : Int))
  | l => (digitsToNat l).map (fun n => (n : Int))

/-- Python `int(x)` applied to a document value: an integer is returned
as-is, a numeric string is parsed, and anything else raises (`none`). -/
def toPyInt : JVal → Option Int
  | .i n => some n
  | .s str => pyIntOfString str
  | _ => none

/-- `volume_for_year` from `pubarchiver/journals/micropublication.py`:
`int(year) - 2014`. -/
def volume_for_year (year : Int) : Int := year - 2014

/-- The constant rightsList value injected by
`Micropublication.article_metadata`. -/
def micropubRightsList : JVal :=
  .arr [.obj [("rights", .s "Creative Commons Attribution 4.0"),
              ("rightsURI", .s "https://creativecommons.org/licenses/by/4.0/legalcode")]]

/-- The date-overlay statement of `Micropublication.article_metadata`:
when the resource has a `dates` entry, overwrite
`xmldict['resource']['dates']['date']['#text']` with the registered
timestamp (KeyError and TypeError from the subscripting modelled as
errors); otherwise create `xmldict['resource']['dates'] =
{'date': article.date}`. -/
def transformDates (registered articleDate : String)
    (res : List (String × JVal)) : Except String (List (String × JVal)) :=
  match getKey res "dates" with
  | some (.obj dts) =>
    match getKey dts "date" with
    | some (.obj dateObj) =>
      .ok (setKey res "dates"
            (.obj (setKey dts "date"
              (.obj (setKey dateObj "#text" (.s registered))))))
    | some _ => .error "TypeError: date value does not support item assignment"
    | none => .error "KeyError: date"
  | some _ => .error "TypeError: dates value is not subscriptable"
  | none => .ok (setKey res "dates" (.obj [("date", .s articleDate)]))

/-- The remaining statements of `Micropublication.article_metadata` on the
resource dictionary: compute `volume` from `publicationYear`, set `file`,
rename `publisher` to `journal` via `pop`, set `e-issn` and `rightsList`,
and `pop` the two schema attributes.  A missing popped key models the
Python KeyError. -/
def transformRest (articleBasename issn : String)
    (res : List (String × JVal)) : Except String (List (String × JVal)) :=
  match getKey res "publicationYear" with
  | none => .error "KeyError: publicationYear"
  | some py =>
    match toPyInt py with
    | none => .error "TypeError: int() argument"
    | some year =>
      let res1 := setKey res "volume" (.i (volume_for_year year))
      let res2 := setKey res1 "file" (.s (articleBasename ++ ".pdf"))
      match popKey res2 "publisher" with
      | none => .error "KeyError: publisher"
      | some (pub, res3) =>
        let res4 := setKey res3 "journal" pub
        let res5 := setKey res4 "e-issn" (.s issn)
        let res6 := setKey res5 "rightsList" micropubRightsList
        match popKey res6 "@xmlns" with
        | none => .error "KeyError: at-xmlns"
        | some (_, res7) =>
          match popKey res7 "@xsi:schemaLocation" with
          | none => .error "KeyError: at-xsi-schemaLocation"
          | some (_, res8) => .ok res8

/-- The dictionary-merging part of `Micropublication.article_metadata`
(the statements after the network call and base64 decode), as a function
of the registered timestamp, the article date and basename, the journal
ISSN, and the decoded raw document.  `Except.error` models an uncaught
Python KeyError/TypeError. -/
def article_metadata_transform (registered articleDate articleBasename issn : String)
    (doc : JVal) : Except String JVal :=
  match doc with
  | .obj top =>
    match getKey top "resource" with
    | some (.obj res) =>
      match transformDates registered articleDate res with
      | .error e => .error e
      | .ok res1 =>
        match transformRest articleBasename issn res1 with
        | .error e => .error e
        | .ok resF => .ok (.obj (setKey top "resource" (.obj resF)))
    | some _ => .error "TypeError: resource value is not subscriptable"
    | none => .error "KeyError: resource"
  | _ => .error "TypeError: document is not subscriptable"

/-- Whether an `Except` result is a success. -/
def exceptIsOk : Except String JVal → Bool
  | .ok _ => true
  | .error _ => false

/-- The document of a successful `Except` result (placeholder otherwise). -/
def extractOk : Except String JVal → JVal
  | .ok d => d
  | .error _ => .s ""

/-- Lookup along a key path through nested dictionaries. -/
def getPath : JVal → List String → Option JVal
  | v, [] => some v
  | .obj fs, k :: rest =>
    match getKey fs k with
    | some v' => getPath v' rest
    | none => none
  | _, _ :: _ => none

/-- Outcome of the `net('get', _DATACITE_API_URL + article.doi)` call in
`Micropublication.article_metadata`: an error value, a falsy response, or
a success carrying the `registered` timestamp and the decoded XML
document. -/
inductive NetOutcome where
  | err (e : String)
  | noResponse
  | ok (registered : String) (raw : JVal)

/-- `Micropublication.article_metadata` from
`pubarchiver/journals/micropublication.py`: return `None` when the
registry call reports an error or an empty response, otherwise apply the
metadata-merge transform to the decoded document.  The outer `Except`
models a Python exception escaping the function (none is ever raised on
the error paths; the dict statements of the transform can raise). -/
def Micropublication.article_metadata (articleDate articleBasename : String)
    (net : NetOutcome) : Except String (Option JVal) :=
  match net with
  | .err _ => .ok none
  | .noResponse => .ok none
  | .ok registered raw =>
    match article_metadata_transform registered articleDate articleBasename
        Micropublication.issn raw with
    | .ok d => .ok (some d)
    | .error e => .error e

/-- The fields of a Crossref works record consulted by
`Prompt.article_metadata`: `volume`, `issue`, `publisher` and `abstract`
default to the empty string when absent; `license` is a list of license
URLs when present; `author` is a list of given/family name pairs. -/
structure PromptWork where
  volume : String
  issue : String
  publisher : String
  abstract : String
  licenseURLs : Option (List String)
  authors : List (String × String)

/-- `creator_list` from `pubarchiver/journals/prompt.py`. -/
def creator_list (authors : List (String × String)) : List JVal :=
  authors.map (fun gf =>
    .obj [("givenName", .obj [("#text", .s gf.1)]),
          ("familyName", .obj [("#text", .s gf.2)])])

/-- `copyright_text` from `pubarchiver/journals/prompt.py`. -/
def copyright_text (authors : List (String × String)) (year : String) : String :=
  "Copyright (c) " ++ year ++ " " ++
    String.intercalate ", " (authors.map (fun gf => gf.1 ++ " " ++ gf.2))

/-- The rights link chosen by `Prompt.article_metadata`: the first
license URL when the license field is a list of more than one entry, else
the CC-BY-NC default. -/
def promptRightsLink (licenseURLs : Option (List String)) : String :=
  match licenseURLs with
  | some urls =>
    if urls.length > 1 then urls.headD ""
    else "https://creativecommons.org/licenses/by-nc/4.0/"
  | none => "https://creativecommons.org/licenses/by-nc/4.0/"

/-- The document literal built by the `try` block of
`Prompt.article_metadata` from the article and the Crossref record; the
markup-stripping of the abstract (BeautifulSoup `get_text`) is an external
collaborator passed as `stripTags`. -/
def promptBuildMetadata (stripTags : String → String) (a : Article)
    (w : PromptWork) : JVal :=
  let year := (a.date.splitOn "-").headD ""
  let file := tail_of_doi a.doi ++ ".pdf"
  .obj [("resource", .obj [
    ("@xmlns:xsi", .s "http://www.w3.org/2001/XMLSchema-instance"),
    ("identifier", .obj [("@identifierType", .s "DOI"), ("#text", .s a.doi)]),
    ("journal", .obj [("#text", .s Prompt.journalName)]),
    ("volume", .obj [("#text", .s w.volume)]),
    ("issue", .obj [("#text", .s w.issue)]),
    ("publisher", .obj [("#text", .s w.publisher)]),
    ("publicationYear", .obj [("#text", .s year)]),
    ("e-issn", .obj [("#text", .s Prompt.issn)]),
    ("file", .obj [("#text", .s file)]),
    ("dates", .obj [("date", .obj [("#text", .s a.date)])]),
    ("titles", .obj [("title", .obj [("#text", .s a.title)])]),
    ("creators", .obj [("creator", .arr (creator_list w.authors))]),
    ("descriptions", .obj [("description",
      .obj [("@descriptionType", .s "Abstract"),
            ("#text", .s (stripTags w.abstract))])]),
    ("rightsList", .obj [
      ("rights", .obj [("#text", .s (copyright_text w.authors year))]),
      ("rightsURI", .obj [("#text", .s (promptRightsLink w.licenseURLs))])])])]

/-- Outcome of the Crossref query `works.doi(article.doi)` made by
`Prompt.article_metadata`: either a works record or a raised exception. -/
inductive CrossrefOutcome where
  | raises (e : String)
  | ok (data : PromptWork)

/-- Result of `Prompt.article_metadata`.  When the `try` block raises, the
`except Exception` handler executes `foo = ex; import pdb; pdb.set_trace()`
-- an interactive debugger breakpoint -- and then falls off the end of the
function (an implicit `return None`).  The breakpoint is an external
effect that blocks an unattended run, so it is modelled as a distinct
result constructor rather than as a plain `None` return. -/
inductive PromptMetaResult where
  | ok (d : JVal)
  | debuggerThenNone

/-- `Prompt.article_metadata` from `pubarchiver/journals/prompt.py`: build
the normalized document from the Crossref record, or, when the query (or
anything in the `try` block) raises, hit the `pdb.set_trace()` breakpoint
left in the exception handler. -/
def Prompt.article_metadata (stripTags : String → String) (a : Article)
    (q : CrossrefOutcome) : PromptMetaResult :=
  match q with
  | .ok w => .ok (promptBuildMetadata stripTags a w)
  | .raises _ => .debuggerThenNone

/-- Resource dictionary of a concrete raw DataCite registry document. -/
def c5res : List (String × JVal) :=
  [("@xmlns", .s "http://datacite.org/schema/kernel-4"),
   ("@xsi:schemaLocation", .s "http://datacite.org/schema/kernel-4 metadata.xsd"),
   ("publisher", .s "microPublication Biology"),
   ("publicationYear", .s "2019"),
   ("dates", .obj [("date", .obj [("#text", .s "2019-05-01T00:00:00Z")])])]

/-- Top-level dictionary of the concrete raw registry document. -/
def c5top : List (String × JVal) := [("resource", .obj c5res)]

/-- A concrete raw DataCite registry document of the shape produced by
`xmltodict.parse` on a decoded registry blob. -/
def c5raw : JVal := .obj c5top

/-- The document produced by one application of the metadata-merge
transform to `c5raw`. -/
def c5once : JVal :=
  extractOk (article_metadata_transform "2019-05-02T10:30:00Z" "2019-05-01"
    "micropub.biology.000102" "2578-9430" c5raw)

/-- Resource dictionary of a concrete raw registry document that lacks a
`dates` section. -/
def c8resNoDates : List (String × JVal) :=
  [("@xmlns", .s "http://datacite.org/schema/kernel-4"),
   ("@xsi:schemaLocation", .s "http://datacite.org/schema/kernel-4 metadata.xsd"),
   ("publisher", .s "microPublication Biology"),
   ("publicationYear", .s "2020")]

/-- Top-level dictionary of the no-dates raw registry document. -/
def c8topNoDates : List (String × JVal) := [("resource", .obj c8resNoDates)]

/-- The document produced by the transform from the no-dates raw
document. -/
def c8onceNoDates : JVal :=
  extractOk (article_metadata_transform "2020-03-04T08:00:00Z" "2020-03-01"
    "micropub.biology.000200" "2578-9430" (.obj c8topNoDates))

/-- A concrete article used to evaluate the Prompt metadata error path. -/
def promptFailingArticle : Article :=
  ⟨"2578-9430", "10.31719/totl.v1i1.9", "2018-01-15", "Writing Prompts",
   "totl.v1i1.9",
   "https://thepromptjournal.com/index.php/prompt/article/download/9/pdf",
   "", "", "complete"⟩

/-- A concrete parsed article entering the save pipeline with an empty
DOI. -/
def wArticleNoDoi : MainArticle :=
  ⟨"", "2020-01-02", "Some Title",
   "https://www.micropublication.org/media/a.pdf",
   "https://www.micropublication.org/media/a.xml",
   "https://www.micropublication.org/media/a.png", "incomplete"⟩

/-- A concrete complete parsed article entering the save pipeline. -/
def wArticleComplete : MainArticle :=
  ⟨"10.17912/micropub.biology.000102", "2019-05-01", "A Title",
   "https://www.micropublication.org/media/b.pdf",
   "https://www.micropublication.org/media/b.xml",
   "https://www.micropublication.org/media/b.png", "complete"⟩

/-- A concrete save environment in which only the PDF download fails. -/
def wEnvPdfFails : SaveEnv := ⟨true, false, true, true, true⟩

/-- A concrete save environment in which every external call succeeds. -/
def wEnvAllOk : SaveEnv := ⟨true, true, true, true, true⟩

/-- A concrete save environment in which PDF and image downloads fail. -/
def wEnvPdfImageFail : SaveEnv := ⟨true, false, true, true, false⟩

/-- `rfindSlash` finds nothing exactly when the list has no slash. -/
theorem rfindSlash_eq_none_iff : ∀ {l : List Char}, rfindSlash l = none ↔ '/' ∉ l := by
  intro l
  induction l with
  | nil => simp [rfindSlash]
  | cons c rest ih =>
    constructor
    · intro h
      simp only [rfindSlash] at h
      cases hr : rfindSlash rest with
      | some i => rw [hr] at h; exact absurd h (by simp)
      | none =>
        rw [hr] at h
        by_cases hc : c = '/'
        · rw [if_pos hc] at h; exact absurd h (by simp)
        · simp only [List.mem_cons]
          rintro (h1 | h2)
          · exact hc h1.symm
          · exact (ih.mp hr) h2
    · intro h
      simp only [List.mem_cons, not_or] at h
      simp only [rfindSlash, ih.mpr h.2]
      rw [if_neg (fun hc => h.1 hc.symm)]

/-- On a list of the shape `l1 ++ '/' :: l2` with no slash in `l2`, the
last slash sits at index `l1.length`. -/
theorem rfindSlash_append {l1 l2 : List Char} (h : '/' ∉ l2) :
    rfindSlash (l1 ++ '/' :: l2) = some l1.length := by
  induction l1 with
  | nil => simp [rfindSlash, rfindSlash_eq_none_iff.mpr h]
  | cons c rest ih => simp [rfindSlash, ih]

/-- Dropping through the slash of `l1 ++ '/' :: l2` leaves `l2`. -/
theorem drop_after_slash (l1 l2 : List Char) :
    (l1 ++ '/' :: l2).drop (l1.length + 1) = l2 := by
  induction l1 with
  | nil => simp
  | cons c rest ih => simp [ih]

/-- `tail_of_doi` of a prefix/suffix DOI is the suffix. -/
theorem tail_of_doi_append {P S : String} (h : '/' ∉ S.data) :
    tail_of_doi (P ++ "/" ++ S) = S := by
  have hdata : (P ++ "/" ++ S).data = P.data ++ '/' :: S.data := by
    simp [String.data_append]
  simp only [tail_of_doi, hdata, rfindSlash_append h, drop_after_slash]

/-- Everything after the last slash contains no slash. -/
theorem not_slash_mem_drop : ∀ {l : List Char} {i : Nat},
    rfindSlash l = some i → '/' ∉ l.drop (i + 1) := by
  intro l
  induction l with
  | nil => intro i h; simp [rfindSlash] at h
  | cons c rest ih =>
    intro i h
    simp only [rfindSlash] at h
    cases hr : rfindSlash rest with
    | some j =>
      rw [hr] at h
      injection h with h'
      subst h'
      simpa using ih hr
    | none =>
      rw [hr] at h
      by_cases hc : c = '/'
      · rw [if_pos hc] at h
        injection h with h'
        subst h'
        simpa using rfindSlash_eq_none_iff.mp hr
      · rw [if_neg hc] at h; cases h

/-- The result of `tail_of_doi` never contains a slash. -/
theorem not_slash_mem_tail_of_doi (d : String) : '/' ∉ (tail_of_doi d).data := by
  simp only [tail_of_doi]
  cases hr : rfindSlash d.data with
  | some i => simpa using not_slash_mem_drop hr
  | none => exact rfindSlash_eq_none_iff.mp hr

/-- `tail_of_doi` fixes any slash-free string. -/
theorem tail_of_doi_no_slash {t : String} (h : '/' ∉ t.data) : tail_of_doi t = t := by
  simp only [tail_of_doi, rfindSlash_eq_none_iff.mpr h]

/-- C9: `basename` is a pure function of the DOI: for any DOI of the form
`P/S` (with a slash-free suffix `S`), `tail_of_doi` returns `S`, the
substring after the final slash; it is idempotent; and DOIs with distinct
suffixes map to distinct basenames. -/
theorem tail_of_doi_spec (P S Q T : String) (hS : '/' ∉ S.data) (hT : '/' ∉ T.data)
    (hne : S ≠ T) :
    tail_of_doi (P ++ "/" ++ S) = S ∧
    (∀ d : String, tail_of_doi (tail_of_doi d) = tail_of_doi d) ∧
    tail_of_doi (P ++ "/" ++ S) ≠ tail_of_doi (Q ++ "/" ++ T) := by
  refine ⟨tail_of_doi_append hS,
    fun d => tail_of_doi_no_slash (not_slash_mem_tail_of_doi d), ?_⟩
  rw [tail_of_doi_append hS, tail_of_doi_append hT]
  exact hne

/-- Witness for `tail_of_doi_spec` at two concrete micropublication
DOIs. -/
theorem tail_of_doi_spec_witness :
    tail_of_doi ("10.17912" ++ "/" ++ "micropub.biology.000102") =
      "micropub.biology.000102" ∧
    tail_of_doi ("10.17912" ++ "/" ++ "micropub.biology.000102") ≠
      tail_of_doi ("10.17912" ++ "/" ++ "micropub.biology.000200") := by
  have h := tail_of_doi_spec "10.17912" "micropub.biology.000102" "10.17912"
    "micropub.biology.000200" (by decide) (by decide) (by decide)
  exact ⟨h.1, h.2.2⟩

/-- The empty string is least in the lexicographic string order. -/
theorem empty_string_le (s : String) : "" ≤ s := by
  rw [String.le_iff_toList_le]
  have h0 : ("" : String).toList = [] := rfl
  rw [h0]
  cases hs : s.toList with
  | nil => exact le_rfl
  | cons c cs => exact le_of_lt (List.nil_lt_cons c cs)

/-- C7: the article list returned by `Micropublication._article_tuples` is
sorted ascending by the date string, and any article with an empty date
precedes every article with a non-empty date (the empty string is the
least string). -/
theorem micropub_articles_sorted (entries : List (Option MicropubEntry)) :
    (micropub_article_tuples entries).Pairwise
      (fun a b => a.date ≤ b.date ∧ (b.date = "" → a.date = "")) := by
  have htrans : ∀ a b c : Article, decide (a.date ≤ b.date) →
      decide (b.date ≤ c.date) → decide (a.date ≤ c.date) := by
    intro a b c h1 h2
    simp only [decide_eq_true_eq] at *
    exact le_trans h1 h2
  have htotal : ∀ a b : Article,
      decide (a.date ≤ b.date) || decide (b.date ≤ a.date) := by
    intro a b
    simpa using le_total a.date b.date
  have h := @List.sorted_mergeSort Article (fun a b => decide (a.date ≤ b.date))
    htrans htotal ((entries.filterMap id).map micropubParseEntry)
  refine List.Pairwise.imp ?_ h
  intro a b hab
  have hle : a.date ≤ b.date := by simpa using hab
  exact ⟨hle, fun hb => le_antisymm (hb ▸ hle) (empty_string_le a.date)⟩

/-- An `if` on the parse-time status equals `"complete"` exactly when its
condition holds. -/
theorem status_if_eq_complete {c : Prop} [Decidable c] :
    ((if c then ("complete" : String) else "incomplete") = "complete") ↔ c := by
  by_cases h : c
  · simp [h]
  · simp [h]

/-- C3: for both adapters, an index entry parses to `status = 'complete'`
exactly when doi, title, date and pdf are non-empty and, when the adapter
requires JATS (`uses_jats`), jats is non-empty; otherwise the status is
`'incomplete'`. -/
theorem parse_status_complete_iff (e : MicropubEntry) (p : PromptEntry) :
    ((micropubParseEntry e).status = "complete" ↔
      ((micropubParseEntry e).doi ≠ "" ∧ (micropubParseEntry e).title ≠ "" ∧
       (micropubParseEntry e).date ≠ "" ∧ (micropubParseEntry e).pdf ≠ "" ∧
       (Micropublication.uses_jats = true → (micropubParseEntry e).jats ≠ ""))) ∧
    ((micropubParseEntry e).status = "complete" ∨
      (micropubParseEntry e).status = "incomplete") ∧
    ((promptParseEntry p).status = "complete" ↔
      ((promptParseEntry p).doi ≠ "" ∧ (promptParseEntry p).title ≠ "" ∧
       (promptParseEntry p).date ≠ "" ∧ (promptParseEntry p).pdf ≠ "" ∧
       (Prompt.uses_jats = true → (promptParseEntry p).jats ≠ ""))) ∧
    ((promptParseEntry p).status = "complete" ∨
      (promptParseEntry p).status = "incomplete") := by
  refine ⟨?_, ?_, ?_, ?_⟩
  · simp only [micropubParseEntry, status_if_eq_complete]
    constructor
    · rintro ⟨h1, h2, h3, h4, h5⟩
      exact ⟨h3, h4, h5, h1, fun _ => h2⟩
    · rintro ⟨h1, h2, h3, h4, h5⟩
      exact ⟨h4, h5 rfl, h1, h2, h3⟩
  · simp only [micropubParseEntry]
    by_cases h : e.pdf ≠ "" ∧ e.jats ≠ "" ∧ e.doi ≠ "" ∧ e.title ≠ "" ∧
        micropubDateString e.datePublished ≠ ""
    · left; simp [h]
    · right; simp [h]
  · simp only [promptParseEntry, status_if_eq_complete]
    constructor
    · rintro ⟨h1, h2, h3, h4⟩
      exact ⟨h2, h3, h4, h1, fun hf => absurd hf (by decide)⟩
    · rintro ⟨h1, h2, h3, h4, _⟩
      exact ⟨h4, h1, h2, h3⟩
  · simp only [promptParseEntry]
    by_cases h : p.pdf ≠ "" ∧ p.doi ≠ "" ∧ p.title ≠ "" ∧
        promptDateString p.dateParts ≠ ""
    · left; simp [h]
    · right; simp [h]

/-- The portico save step leaves the status unchanged or assigns one of
the `failed-*` statuses. -/
theorem save_article_portico_status (doValidate : Bool) (env : SaveEnv) (a : MainArticle) :
    (save_article_portico doValidate env a).1.status = a.status ∨
      (save_article_portico doValidate env a).1.status ∈ failedStatuses := by
  simp only [save_article_portico, failedStatuses]
  by_cases h1 : env.pdfOk <;> by_cases h2 : env.jatsOk <;>
    by_cases hd : doValidate <;> by_cases hv : env.jatsValid <;>
    by_cases h4 : a.image = "" <;> by_cases h5 : env.imageOk <;>
      simp [h1, h2, hd, hv, h4, h5]

/-- The PMC save step leaves the status unchanged or assigns one of the
`failed-*` statuses. -/
theorem save_article_pmc_status (doValidate zipArticles : Bool) (env : SaveEnv)
    (a : MainArticle) :
    (save_article_pmc doValidate zipArticles env a).1.status = a.status ∨
      (save_article_pmc doValidate zipArticles env a).1.status ∈ failedStatuses := by
  simp only [save_article_pmc, failedStatuses]
  by_cases h0 : zipArticles <;> by_cases h1 : env.pdfOk <;> by_cases h2 : env.jatsOk <;>
    by_cases hd : doValidate <;> by_cases hv : env.jatsValid <;>
    by_cases h4 : a.image = "" <;> by_cases h5 : env.imageOk <;>
      simp [h0, h1, h2, hd, hv, h4, h5] <;> split <;> simp

/-- No parse-time or `failed-*` status starts with `missing`. -/
theorem no_missing_start :
    ∀ s ∈ ["complete", "incomplete"] ++ failedStatuses,
      startswith s "missing" = false := by decide

/-- C1: the guards of `MainBody._save_articles` run in the fixed order
doi-empty, pdf-empty, jats-empty, metadata-resolution-failed; the first
failing guard sets the corresponding `missing-*` status and stops the
processing of that article, so no asset is acquired and no file is
written for an article whose status is any `missing-*` value. -/
theorem save_guards_short_circuit (doValidate zipArticles : Bool)
    (struct : OutputStructure) (env : SaveEnv) (a : MainArticle)
    (hst : a.status = "complete" ∨ a.status = "incomplete") :
    (a.doi = "" →
      process_article doValidate zipArticles struct env a =
        ({ a with status := "missing-doi" }, [])) ∧
    (a.doi ≠ "" → a.pdf = "" →
      process_article doValidate zipArticles struct env a =
        ({ a with status := "missing-pdf" }, [])) ∧
    (a.doi ≠ "" → a.pdf ≠ "" → a.jats = "" →
      process_article doValidate zipArticles struct env a =
        ({ a with status := "missing-jats" }, [])) ∧
    (a.doi ≠ "" → a.pdf ≠ "" → a.jats ≠ "" → env.metadataOk = false →
      process_article doValidate zipArticles struct env a =
        ({ a with status := "missing-datacite" }, [])) ∧
    (startswith (process_article doValidate zipArticles struct env a).1.status
        "missing" = true →
      (process_article doValidate zipArticles struct env a).2 = []) := by
  refine ⟨?_, ?_, ?_, ?_, ?_⟩
  · intro h; simp [process_article, h]
  · intro h1 h2; simp [process_article, h1, h2]
  · intro h1 h2 h3; simp [process_article, h1, h2, h3]
  · intro h1 h2 h3 h4; simp [process_article, h1, h2, h3, h4]
  · intro hpre
    by_cases h1 : a.doi = ""
    · simp [process_article, h1]
    · by_cases h2 : a.pdf = ""
      · simp [process_article, h1, h2]
      · by_cases h3 : a.jats = ""
        · simp [process_article, h1, h2, h3]
        · by_cases h4 : env.metadataOk
          · exfalso
            have hres : (process_article doValidate zipArticles struct env a).1.status
                  = a.status ∨
                (process_article doValidate zipArticles struct env a).1.status
                  ∈ failedStatuses := by
              cases struct with
              | pmc =>
                simpa [process_article, h1, h2, h3, h4] using
                  save_article_pmc_status doValidate zipArticles env a
              | portico =>
                simpa [process_article, h1, h2, h3, h4] using
                  save_article_portico_status doValidate env a
            have hmem : (process_article doValidate zipArticles struct env a).1.status
                ∈ ["complete", "incomplete"] ++ failedStatuses := by
              rcases hres with he | he
              · rw [he]
                rcases hst with h | h <;> simp [h]
              · simp [he]
            have := no_missing_start _ hmem
            rw [hpre] at this
            exact absurd this (by simp)
          · simp only [Bool.not_eq_true] at h4
            simp [process_article, h1, h2, h3, h4]

/-- Witness for `save_guards_short_circuit`: an article with an empty DOI
is marked `missing-doi` and produces no files. -/
theorem save_guards_short_circuit_witness :
    process_article true true OutputStructure.portico wEnvAllOk wArticleNoDoi =
      ({ wArticleNoDoi with status := "missing-doi" }, []) :=
  (save_guards_short_circuit true true OutputStructure.portico wEnvAllOk wArticleNoDoi
    (Or.inr rfl)).1 rfl

/-- C4: when the PDF download fails in the portico save step, the status
becomes `failed-pdf-download` but the remaining steps still execute: the
JATS file and the converted TIFF are written (and the PDF is not); and a
later failing step overwrites the status, so if the image download also
fails the final status is `failed-image-download`. -/
theorem pdf_failure_best_effort (doValidate : Bool) (env env2 : SaveEnv)
    (a a2 : MainArticle)
    (hpdf : env.pdfOk = false) (hjats : env.jatsOk = true)
    (hvalid : env.jatsValid = true) (himg : env.imageOk = true)
    (himage : a.image ≠ "") (hpdf2 : env2.pdfOk = false)
    (himage2 : a2.image ≠ "") (himg2 : env2.imageOk = false) :
    (save_article_portico doValidate env a).1.status = "failed-pdf-download" ∧
    FileKind.jatsFile ∈ (save_article_portico doValidate env a).2 ∧
    FileKind.tiffFile ∈ (save_article_portico doValidate env a).2 ∧
    FileKind.pdfFile ∉ (save_article_portico doValidate env a).2 ∧
    (save_article_portico doValidate env2 a2).1.status = "failed-image-download" := by
  refine ⟨?_, ?_, ?_, ?_, ?_⟩ <;>
    simp [save_article_portico, hpdf, hjats, hvalid, himg, himage, hpdf2,
      himage2, himg2]

/-- Witness for `pdf_failure_best_effort` at concrete articles and
download outcomes. -/
theorem pdf_failure_best_effort_witness :
    (save_article_portico true wEnvPdfFails wArticleComplete).1.status =
      "failed-pdf-download" ∧
    FileKind.jatsFile ∈ (save_article_portico true wEnvPdfFails wArticleComplete).2 ∧
    (save_article_portico true wEnvPdfImageFail wArticleComplete).1.status =
      "failed-image-download" := by
  have h := pdf_failure_best_effort true wEnvPdfFails wEnvPdfImageFail
    wArticleComplete wArticleComplete rfl rfl rfl rfl (by decide) rfl (by decide) rfl
  exact ⟨h.1, h.2.1, h.2.2.2.2⟩

/-- C10: in the PMC layout with zipping enabled, the per-article ZIP is
created exactly when the final status does not begin with `fail`; when it
is created the component files are replaced by the ZIP, and when a
`failed-*` status was set no ZIP is created and the downloaded files stay
in place. -/
theorem pmc_zip_iff_status_not_failed (doValidate : Bool) (env : SaveEnv)
    (a : MainArticle)
    (hst : a.status = "complete" ∨ a.status = "incomplete") :
    ((save_article_pmc doValidate true env a).2.2 = true ↔
      startswith (save_article_pmc doValidate true env a).1.status "fail" = false) ∧
    ((save_article_pmc doValidate true env a).2.2 = true →
      (save_article_pmc doValidate true env a).2.1 = [FileKind.zipFile]) ∧
    ((save_article_pmc doValidate true env a).2.2 = false →
      (save_article_pmc doValidate true env a).2.1 = pmc_downloaded_files env a) := by
  rcases hst with h | h <;>
    by_cases h1 : env.pdfOk <;> by_cases h2 : env.jatsOk <;>
      by_cases hd : doValidate <;> by_cases hv : env.jatsValid <;>
      by_cases h4 : a.image = "" <;> by_cases h5 : env.imageOk <;>
        simp +decide [save_article_pmc, pmc_downloaded_files, startswith,
          h, h1, h2, hd, hv, h4, h5]

/-- Witness for `pmc_zip_iff_status_not_failed`: a fully successful
article gets exactly its ZIP archive. -/
theorem pmc_zip_iff_status_not_failed_witness :
    (save_article_pmc true true wEnvAllOk wArticleComplete).2.1 = [FileKind.zipFile] :=
  (pmc_zip_iff_status_not_failed true wEnvAllOk wArticleComplete (Or.inl rfl)).2.1 rfl

/-- `save_articles` processes the head and then the tail. -/
theorem save_articles_cons (doValidate zipArticles : Bool) (struct : OutputStructure)
    (envOf : MainArticle → SaveEnv) (x : MainArticle) (xs : List MainArticle) :
    save_articles doValidate zipArticles struct envOf (x :: xs) =
      (process_article doValidate zipArticles struct (envOf x) x).1 ::
        save_articles doValidate zipArticles struct envOf xs := rfl

/-- One article contributes one or zero to the failure sum. -/
theorem failures_cons (a : MainArticle) (l : List MainArticle) :
    failures (a :: l) =
      (if startswith a.status "fail" then 1 else 0) + failures l := by
  simp [failures]

/-- Processing a parsed article always yields one of the terminal
statuses. -/
theorem process_article_status_mem (doValidate zipArticles : Bool)
    (struct : OutputStructure) (env : SaveEnv) (a : MainArticle)
    (hst : a.status = "complete" ∨ a.status = "incomplete") :
    (process_article doValidate zipArticles struct env a).1.status ∈ terminalStatuses := by
  by_cases h1 : a.doi = ""
  · simp [process_article, h1, terminalStatuses, failedStatuses]
  · by_cases h2 : a.pdf = ""
    · simp [process_article, h1, h2, terminalStatuses, failedStatuses]
    · by_cases h3 : a.jats = ""
      · simp [process_article, h1, h2, h3, terminalStatuses, failedStatuses]
      · by_cases h4 : env.metadataOk
        · have hsave : (process_article doValidate zipArticles struct env a).1.status
                = a.status ∨
              (process_article doValidate zipArticles struct env a).1.status
                ∈ failedStatuses := by
            cases struct with
            | pmc =>
              simpa [process_article, h1, h2, h3, h4] using
                save_article_pmc_status doValidate zipArticles env a
            | portico =>
              simpa [process_article, h1, h2, h3, h4] using
                save_article_portico_status doValidate env a
          rcases hsave with he | he
          · rw [he]
            rcases hst with h | h <;> simp [h, terminalStatuses]
          · simp only [terminalStatuses, failedStatuses, List.mem_append,
              List.mem_cons, List.not_mem_nil] at he ⊢
            tauto
        · simp only [Bool.not_eq_true] at h4
          simp [process_article, h1, h2, h3, h4, terminalStatuses, failedStatuses]

/-- A terminal status begins with `fail` exactly when it is one of the
`failed-*` statuses. -/
theorem terminal_fail_iff :
    ∀ s ∈ terminalStatuses, (startswith s "fail" = true ↔ s ∈ failedStatuses) := by
  decide

/-- The failure sum over processed articles counts exactly the articles
with a `failed-*` status. -/
theorem failures_filter_aux (doValidate zipArticles : Bool) (struct : OutputStructure)
    (envOf : MainArticle → SaveEnv) :
    ∀ articles : List MainArticle,
      (∀ a ∈ articles, a.status = "complete" ∨ a.status = "incomplete") →
      failures (save_articles doValidate zipArticles struct envOf articles) =
        ((save_articles doValidate zipArticles struct envOf articles).filter
          (fun a => decide (a.status ∈ failedStatuses))).length := by
  intro articles
  induction articles with
  | nil => intro _; simp [failures, save_articles]
  | cons x xs ih =>
    intro h
    have hterm := process_article_status_mem doValidate zipArticles struct (envOf x) x
      (h x (List.mem_cons_self x xs))
    have hiff := terminal_fail_iff _ hterm
    have ihx := ih (fun a ha => h a (List.mem_cons_of_mem x ha))
    rw [save_articles_cons, failures_cons, List.filter_cons]
    by_cases hy : startswith
        (process_article doValidate zipArticles struct (envOf x) x).1.status "fail" = true
    · have hmem := hiff.mp hy
      rw [hy]
      simp only [decide_eq_true_eq]
      rw [if_pos hmem, if_pos trivial, List.length_cons, ihx]
      omega
    · have hmem : (process_article doValidate zipArticles struct
          (envOf x) x).1.status ∉ failedStatuses := fun hm => hy (hiff.mpr hm)
      simp only [Bool.not_eq_true] at hy
      rw [hy]
      simp only [decide_eq_true_eq]
      rw [if_neg hmem, if_neg (by simp), ihx]
      omega

/-- C2: after all articles are processed, the failure count equals the
number of articles whose terminal status is one of the `failed-*`
statuses (`missing-*` and `incomplete` articles contribute nothing), and
the process exit code is `100 + count` when the count is positive and `0`
when it is zero. -/
theorem failures_and_exit_code (doValidate zipArticles : Bool)
    (struct : OutputStructure) (envOf : MainArticle → SaveEnv)
    (articles : List MainArticle)
    (h : ∀ a ∈ articles, a.status = "complete" ∨ a.status = "incomplete") :
    failures (save_articles doValidate zipArticles struct envOf articles) =
      ((save_articles doValidate zipArticles struct envOf articles).filter
        (fun a => decide (a.status ∈ failedStatuses))).length ∧
    (failures (save_articles doValidate zipArticles struct envOf articles) = 0 →
      main_exit_code
        (failures (save_articles doValidate zipArticles struct envOf articles)) = 0) ∧
    (0 < failures (save_articles doValidate zipArticles struct envOf articles) →
      main_exit_code
        (failures (save_articles doValidate zipArticles struct envOf articles)) =
        100 + failures (save_articles doValidate zipArticles struct envOf articles)) := by
  refine ⟨failures_filter_aux doValidate zipArticles struct envOf articles h, ?_, ?_⟩
  · intro h0; simp [main_exit_code, h0]
  · intro h0; simp [main_exit_code, h0]

/-- Witness for `failures_and_exit_code`: one article whose PDF download
fails yields one counted failure and exit code 101. -/
theorem failures_and_exit_code_witness :
    failures (save_articles true true OutputStructure.portico (fun _ => wEnvPdfFails)
      [wArticleComplete]) =
      ((save_articles true true OutputStructure.portico (fun _ => wEnvPdfFails)
        [wArticleComplete]).filter
          (fun a => decide (a.status ∈ failedStatuses))).length ∧
    main_exit_code (failures (save_articles true true OutputStructure.portico
      (fun _ => wEnvPdfFails) [wArticleComplete])) =
      100 + failures (save_articles true true OutputStructure.portico
        (fun _ => wEnvPdfFails) [wArticleComplete]) := by
  have h := failures_and_exit_code true true OutputStructure.portico
    (fun _ => wEnvPdfFails) [wArticleComplete]
    (by intro a ha; rw [List.mem_singleton] at ha; subst ha; exact Or.inl rfl)
  refine ⟨h.1, h.2.2 ?_⟩
  decide

/-- C6 (code bug evaluation): on a registry-side error the
micropublication adapter returns `None`, but the Prompt adapter hits the
`pdb.set_trace()` debugger breakpoint left in its `except` handler
instead of cleanly returning `None`, so an unattended run blocks. -/
theorem prompt_metadata_error_enters_debugger :
    Prompt.article_metadata id promptFailingArticle
        (CrossrefOutcome.raises "requests.exceptions.ConnectionError") =
      PromptMetaResult.debuggerThenNone ∧
    Micropublication.article_metadata "2019-05-01" "micropub.biology.000102"
        (NetOutcome.err "HTTP 500") = Except.ok none :=
  ⟨rfl, rfl⟩

/-- C5 counterexample: one application of the metadata-merge transform to
the concrete raw registry document `c5raw` succeeds, but applying the
transform again to the document it produced raises (the first application
removed the `publisher` key that the second tries to pop), so the
transform is not idempotent. -/
theorem transform_twice_errors_on_c5raw :
    exceptIsOk (article_metadata_transform "2019-05-02T10:30:00Z" "2019-05-01"
      "micropub.biology.000102" "2578-9430" c5raw) = true ∧
    exceptIsOk (article_metadata_transform "2019-05-02T10:30:00Z" "2019-05-01"
      "micropub.biology.000102" "2578-9430" c5once) = false :=
  ⟨rfl, rfl⟩

/-- Looking up the key just set returns the new value. -/
theorem getKey_setKey_same (m : List (String × JVal)) (k : String) (v : JVal) :
    getKey (setKey m k v) k = some v := by
  induction m with
  | nil => simp [setKey, getKey]
  | cons p rest ih =>
    obtain ⟨k0, v0⟩ := p
    by_cases h : k0 = k
    · simp [setKey, getKey, h]
    · simp [setKey, getKey, h, ih]

/-- Setting one key does not change the lookup of another. -/
theorem getKey_setKey_other {k k' : String} (h : k' ≠ k)
    (m : List (String × JVal)) (v : JVal) :
    getKey (setKey m k v) k' = getKey m k' := by
  induction m with
  | nil =>
    simp only [setKey, getKey]
    rw [if_neg (fun he : k = k' => h he.symm)]
  | cons p rest ih =>
    obtain ⟨k0, v0⟩ := p
    by_cases h0 : k0 = k
    · subst h0
      simp only [setKey, if_pos rfl, getKey]
      rw [if_neg (fun he : k0 = k' => h (he ▸ rfl)), if_neg (fun he : k0 = k' => h (he ▸ rfl))]
    · simp only [setKey, if_neg h0, getKey]
      by_cases h1 : k0 = k'
      · simp [h1]
      · simp [h1, ih]

/-- Popping one key does not change the lookup of another. -/
theorem popKey_getKey_other {k k' : String} (h : k' ≠ k) :
    ∀ {m m' : List (String × JVal)} {v : JVal}, popKey m k = some (v, m') →
      getKey m' k' = getKey m k' := by
  intro m
  induction m with
  | nil => intro m' v hp; simp [popKey] at hp
  | cons p rest ih =>
    intro m' v hp
    obtain ⟨k0, v0⟩ := p
    simp only [popKey] at hp
    by_cases h0 : k0 = k
    · rw [if_pos h0] at hp
      simp only [Option.some.injEq, Prod.mk.injEq] at hp
      obtain ⟨-, hm⟩ := hp
      subst hm
      simp only [getKey]
      rw [if_neg (fun he : k0 = k' => h (h0 ▸ he ▸ rfl))]
    · rw [if_neg h0] at hp
      cases hrec : popKey rest k with
      | none => rw [hrec] at hp; simp at hp
      | some pr =>
        obtain ⟨vr, restr⟩ := pr
        rw [hrec] at hp
        simp only [Option.some.injEq, Prod.mk.injEq] at hp
        obtain ⟨-, hm⟩ := hp
        subst hm
        simp only [getKey]
        by_cases h1 : k0 = k'
        · simp [h1]
        · simp [h1, ih hrec]

/-- A key of `setKey m k v` is a key of `m` or is `k`. -/
theorem mem_keys_setKey {k' k : String} {m : List (String × JVal)} {v : JVal}
    (h : k' ∈ (setKey m k v).map Prod.fst) : k' ∈ m.map Prod.fst ∨ k' = k := by
  induction m with
  | nil =>
    simp only [setKey, List.map_cons, List.map_nil, List.mem_cons,
      List.not_mem_nil, or_false] at h
    exact Or.inr h
  | cons p rest ih =>
    obtain ⟨k0, v0⟩ := p
    by_cases h0 : k0 = k
    · simp only [setKey, if_pos h0, List.map_cons, List.mem_cons] at h ⊢
      tauto
    · simp only [setKey, if_neg h0, List.map_cons, List.mem_cons] at h ⊢
      rcases h with h | h
      · tauto
      · rcases ih h with h' | h' <;> tauto

/-- Setting a different key preserves the absence of a key. -/
theorem not_mem_keys_setKey {k' k : String} {m : List (String × JVal)} {v : JVal}
    (h1 : k' ∉ m.map Prod.fst) (h2 : k' ≠ k) :
    k' ∉ (setKey m k v).map Prod.fst :=
  fun hm => (mem_keys_setKey hm).elim h1 h2

/-- The keys after a pop are among the original keys. -/
theorem popKey_keys_subset {k : String} :
    ∀ {m m' : List (String × JVal)} {v : JVal}, popKey m k = some (v, m') →
      ∀ {k' : String}, k' ∈ m'.map Prod.fst → k' ∈ m.map Prod.fst := by
  intro m
  induction m with
  | nil => intro m' v hp; simp [popKey] at hp
  | cons p rest ih =>
    intro m' v hp k' hk
    obtain ⟨k0, v0⟩ := p
    simp only [popKey] at hp
    by_cases h0 : k0 = k
    · rw [if_pos h0] at hp
      simp only [Option.some.injEq, Prod.mk.injEq] at hp
      obtain ⟨-, hm⟩ := hp
      subst hm
      simp only [List.map_cons, List.mem_cons]
      exact Or.inr hk
    · rw [if_neg h0] at hp
      cases hrec : popKey rest k with
      | none => rw [hrec] at hp; simp at hp
      | some pr =>
        obtain ⟨vr, restr⟩ := pr
        rw [hrec] at hp
        simp only [Option.some.injEq, Prod.mk.injEq] at hp
        obtain ⟨-, hm⟩ := hp
        subst hm
        simp only [List.map_cons, List.mem_cons] at hk ⊢
        rcases hk with hk | hk
        · exact Or.inl hk
        · exact Or.inr (ih hrec hk)

/-- Popping a key from a dictionary with no duplicate keys removes it
completely. -/
theorem popKey_nodup_not_mem {k : String} :
    ∀ {m m' : List (String × JVal)} {v : JVal}, (m.map Prod.fst).Nodup →
      popKey m k = some (v, m') → k ∉ m'.map Prod.fst := by
  intro m
  induction m with
  | nil => intro m' v _ hp; simp [popKey] at hp
  | cons p rest ih =>
    intro m' v hnd hp
    obtain ⟨k0, v0⟩ := p
    simp only [List.map_cons, List.nodup_cons] at hnd
    simp only [popKey] at hp
    by_cases h0 : k0 = k
    · rw [if_pos h0] at hp
      simp only [Option.some.injEq, Prod.mk.injEq] at hp
      obtain ⟨-, hm⟩ := hp
      subst hm
      exact h0 ▸ hnd.1
    · rw [if_neg h0] at hp
      cases hrec : popKey rest k with
      | none => rw [hrec] at hp; simp at hp
      | some pr =>
        obtain ⟨vr, restr⟩ := pr
        rw [hrec] at hp
        simp only [Option.some.injEq, Prod.mk.injEq] at hp
        obtain ⟨-, hm⟩ := hp
        subst hm
        simp only [List.map_cons, List.mem_cons, not_or]
        exact ⟨fun he => h0 he.symm, ih hnd.2 hrec⟩

/-- Popping an absent key raises (`none`). -/
theorem popKey_eq_none_of_not_mem {k : String} :
    ∀ {m : List (String × JVal)}, k ∉ m.map Prod.fst → popKey m k = none := by
  intro m
  induction m with
  | nil => intro _; rfl
  | cons p rest ih =>
    intro h
    obtain ⟨k0, v0⟩ := p
    simp only [List.map_cons, List.mem_cons, not_or] at h
    simp only [popKey]
    rw [if_neg (fun he : k0 = k => h.1 he.symm), ih h.2]

/-- `setKey` preserves the no-duplicate-keys invariant. -/
theorem setKey_keys_nodup {k : String} {v : JVal} :
    ∀ {m : List (String × JVal)}, (m.map Prod.fst).Nodup →
      ((setKey m k v).map Prod.fst).Nodup := by
  intro m
  induction m with
  | nil => intro _; simp [setKey]
  | cons p rest ih =>
    intro hnd
    obtain ⟨k0, v0⟩ := p
    simp only [List.map_cons, List.nodup_cons] at hnd
    by_cases h0 : k0 = k
    · simp only [setKey, if_pos h0, List.map_cons, List.nodup_cons]
      exact hnd
    · simp only [setKey, if_neg h0, List.map_cons, List.nodup_cons]
      exact ⟨not_mem_keys_setKey hnd.1 h0, ih hnd.2⟩


/-- A successful date-overlay step either created the dates section (no
`dates` key in the input) or overwrote the `#text` of an existing
dictionary-valued `dates.date`. -/
theorem transformDates_ok_cases {reg ad : String} {res res1 : List (String × JVal)}
    (h : transformDates reg ad res = .ok res1) :
    (getKey res "dates" = none ∧
      res1 = setKey res "dates" (.obj [("date", .s ad)])) ∨
    (∃ dts dateObj, getKey res "dates" = some (.obj dts) ∧
      getKey dts "date" = some (.obj dateObj) ∧
      res1 = setKey res "dates"
        (.obj (setKey dts "date" (.obj (setKey dateObj "#text" (.s reg)))))) := by
  unfold transformDates at h
  cases hd : getKey res "dates" with
  | none =>
    simp only [hd] at h
    simp only [Except.ok.injEq] at h
    exact Or.inl ⟨rfl, h.symm⟩
  | some dv =>
    cases dv with
    | obj dts =>
      simp only [hd] at h
      cases hdd : getKey dts "date" with
      | none => simp [hdd] at h
      | some ddv =>
        cases ddv with
        | obj dateObj =>
          simp only [hdd] at h
          simp only [Except.ok.injEq] at h
          exact Or.inr ⟨dts, dateObj, rfl, hdd, h.symm⟩
        | s v => simp [hdd] at h
        | i v => simp [hdd] at h
        | arr l => simp [hdd] at h
    | s v => simp [hd] at h
    | i v => simp [hd] at h
    | arr l => simp [hd] at h

/-- The date-overlay step preserves the no-duplicate-keys invariant. -/
theorem transformDates_nodup {reg ad : String} {res res1 : List (String × JVal)}
    (hnd : (res.map Prod.fst).Nodup) (h : transformDates reg ad res = .ok res1) :
    (res1.map Prod.fst).Nodup := by
  rcases transformDates_ok_cases h with ⟨-, h1⟩ | ⟨dts, dateObj, -, -, h1⟩ <;>
    (subst h1; exact setKey_keys_nodup hnd)

/-- After a successful rename/inject/strip step on a dictionary with no
duplicate keys, the `publisher` key is gone. -/
theorem transformRest_ok_not_publisher {bn issn : String}
    {res resF : List (String × JVal)} (hnd : (res.map Prod.fst).Nodup)
    (h : transformRest bn issn res = .ok resF) :
    "publisher" ∉ resF.map Prod.fst := by
  simp only [transformRest] at h
  cases hpy : getKey res "publicationYear" with
  | none => simp [hpy] at h
  | some py =>
    simp only [hpy] at h
    cases hint : toPyInt py with
    | none => simp [hint] at h
    | some year =>
      simp only [hint] at h
      cases hpop : popKey (setKey (setKey res "volume" (.i (volume_for_year year)))
          "file" (.s (bn ++ ".pdf"))) "publisher" with
      | none => simp [hpop] at h
      | some pr =>
        obtain ⟨pub, res3⟩ := pr
        simp only [hpop] at h
        cases hx1 : popKey (setKey (setKey (setKey res3 "journal" pub) "e-issn"
            (.s issn)) "rightsList" micropubRightsList) "@xmlns" with
        | none => simp [hx1] at h
        | some pr7 =>
          obtain ⟨p7, res7⟩ := pr7
          simp only [hx1] at h
          cases hx2 : popKey res7 "@xsi:schemaLocation" with
          | none => simp [hx2] at h
          | some pr8 =>
            obtain ⟨p8, res8⟩ := pr8
            simp only [hx2] at h
            simp only [Except.ok.injEq] at h
            subst h
            have hn2 : (((setKey (setKey res "volume" (.i (volume_for_year year)))
                "file" (.s (bn ++ ".pdf")))).map Prod.fst).Nodup :=
              setKey_keys_nodup (setKey_keys_nodup hnd)
            have h3 : "publisher" ∉ res3.map Prod.fst := popKey_nodup_not_mem hn2 hpop
            have h4 : "publisher" ∉ (setKey res3 "journal" pub).map Prod.fst :=
              not_mem_keys_setKey h3 (show "publisher" ≠ "journal" by decide)
            have h5 : "publisher" ∉
                (setKey (setKey res3 "journal" pub) "e-issn" (JVal.s issn)).map
                  Prod.fst :=
              not_mem_keys_setKey h4 (show "publisher" ≠ "e-issn" by decide)
            have h6 : "publisher" ∉
                (setKey (setKey (setKey res3 "journal" pub) "e-issn" (JVal.s issn))
                  "rightsList" micropubRightsList).map Prod.fst :=
              not_mem_keys_setKey h5
                (show "publisher" ≠ "rightsList" by decide)
            have h7 : "publisher" ∉ res7.map Prod.fst :=
              fun hm => h6 (popKey_keys_subset hx1 hm)
            exact fun hm => h7 (popKey_keys_subset hx2 hm)

/-- The rename/inject/strip step never touches the `dates` key. -/
theorem transformRest_getKey_dates {bn issn : String}
    {res resF : List (String × JVal)} (h : transformRest bn issn res = .ok resF) :
    getKey resF "dates" = getKey res "dates" := by
  simp only [transformRest] at h
  cases hpy : getKey res "publicationYear" with
  | none => simp [hpy] at h
  | some py =>
    simp only [hpy] at h
    cases hint : toPyInt py with
    | none => simp [hint] at h
    | some year =>
      simp only [hint] at h
      cases hpop : popKey (setKey (setKey res "volume" (.i (volume_for_year year)))
          "file" (.s (bn ++ ".pdf"))) "publisher" with
      | none => simp [hpop] at h
      | some pr =>
        obtain ⟨pub, res3⟩ := pr
        simp only [hpop] at h
        cases hx1 : popKey (setKey (setKey (setKey res3 "journal" pub) "e-issn"
            (.s issn)) "rightsList" micropubRightsList) "@xmlns" with
        | none => simp [hx1] at h
        | some pr7 =>
          obtain ⟨p7, res7⟩ := pr7
          simp only [hx1] at h
          cases hx2 : popKey res7 "@xsi:schemaLocation" with
          | none => simp [hx2] at h
          | some pr8 =>
            obtain ⟨p8, res8⟩ := pr8
            simp only [hx2] at h
            simp only [Except.ok.injEq] at h
            subst h
            rw [popKey_getKey_other (show "dates" ≠ "@xsi:schemaLocation" by decide) hx2,
              popKey_getKey_other (show "dates" ≠ "@xmlns" by decide) hx1,
              getKey_setKey_other (show "dates" ≠ "rightsList" by decide),
              getKey_setKey_other (show "dates" ≠ "e-issn" by decide),
              getKey_setKey_other (show "dates" ≠ "journal" by decide),
              popKey_getKey_other (show "dates" ≠ "publisher" by decide) hpop,
              getKey_setKey_other (show "dates" ≠ "file" by decide),
              getKey_setKey_other (show "dates" ≠ "volume" by decide)]

/-- Without a `publisher` key the rename/inject/strip step always raises
(the `pop` of `publisher` fails). -/
theorem transformRest_no_publisher_ne_ok {bn issn : String}
    {res : List (String × JVal)} (h : "publisher" ∉ res.map Prod.fst) :
    ∀ resF, transformRest bn issn res ≠ .ok resF := by
  intro resF hk
  simp only [transformRest] at hk
  cases hpy : getKey res "publicationYear" with
  | none => simp [hpy] at hk
  | some py =>
    simp only [hpy] at hk
    cases hint : toPyInt py with
    | none => simp [hint] at hk
    | some year =>
      simp only [hint] at hk
      have h1 : "publisher" ∉
          (setKey res "volume" (JVal.i (volume_for_year year))).map Prod.fst :=
        not_mem_keys_setKey h (show "publisher" ≠ "volume" by decide)
      have h2 : "publisher" ∉
          (setKey (setKey res "volume" (JVal.i (volume_for_year year))) "file"
            (JVal.s (bn ++ ".pdf"))).map Prod.fst :=
        not_mem_keys_setKey h1 (show "publisher" ≠ "file" by decide)
      rw [popKey_eq_none_of_not_mem h2] at hk
      simp at hk

/-- C5 (amended): the metadata-merge transform is not idempotent.
Whenever it succeeds on a raw registry document (whose resource
dictionary has no duplicate keys, as any Python dict guarantees),
applying the transform again to the produced document always raises:
the first application popped the `publisher` key, so the second
application fails no later than its own `pop` of `publisher`. -/
theorem micropub_transform_second_application_fails
    (reg ad bn issn reg2 ad2 bn2 issn2 : String)
    (top res : List (String × JVal)) (d : JVal)
    (hres : getKey top "resource" = some (.obj res))
    (hnodup : (res.map Prod.fst).Nodup)
    (h : article_metadata_transform reg ad bn issn (.obj top) = .ok d) :
    exceptIsOk (article_metadata_transform reg2 ad2 bn2 issn2 d) = false := by
  simp only [article_metadata_transform] at h
  simp only [hres] at h
  cases hd1 : transformDates reg ad res with
  | error e => simp [hd1] at h
  | ok res1 =>
    simp only [hd1] at h
    cases hr1 : transformRest bn issn res1 with
    | error e => simp [hr1] at h
    | ok resF =>
      simp only [hr1, Except.ok.injEq] at h
      subst h
      have hnd1 : (res1.map Prod.fst).Nodup := transformDates_nodup hnodup hd1
      have hpubF : "publisher" ∉ resF.map Prod.fst :=
        transformRest_ok_not_publisher hnd1 hr1
      simp only [article_metadata_transform, getKey_setKey_same]
      cases hd2 : transformDates reg2 ad2 resF with
      | error e => simp [hd2, exceptIsOk]
      | ok res1' =>
        have hpub' : "publisher" ∉ res1'.map Prod.fst := by
          rcases transformDates_ok_cases hd2 with ⟨-, h1⟩ | ⟨dts, dateObj, -, -, h1⟩ <;>
            (subst h1;
             exact not_mem_keys_setKey hpubF (show "publisher" ≠ "dates" by decide))
        simp only [hd2]
        cases hr2 : transformRest bn2 issn2 res1' with
        | error e => simp [hr2, exceptIsOk]
        | ok r => exact absurd hr2 (transformRest_no_publisher_ne_ok hpub' r)

/-- Witness for `micropub_transform_second_application_fails` at the
concrete document `c5raw` and its transform result `c5once`. -/
theorem micropub_transform_second_application_fails_witness :
    exceptIsOk (article_metadata_transform "2019-06-01T00:00:00Z" "2019-06-01"
      "micropub.biology.000103" "2578-9430" c5once) = false :=
  micropub_transform_second_application_fails "2019-05-02T10:30:00Z" "2019-05-01"
    "micropub.biology.000102" "2578-9430" "2019-06-01T00:00:00Z" "2019-06-01"
    "micropub.biology.000103" "2578-9430" c5top c5res c5once rfl (by decide) rfl

/-- C8: in the normalized metadata produced by a successful run of the
DataCite transform, when the raw registry document has a `dates` section
its `dates.date.#text` is overwritten with the registered timestamp, and
when it has none a `dates` section is created holding the article's own
date. -/
theorem datacite_dates_overlay (reg ad bn issn : String)
    (top res : List (String × JVal)) (d : JVal)
    (hres : getKey top "resource" = some (.obj res))
    (h : article_metadata_transform reg ad bn issn (.obj top) = .ok d) :
    (getKey res "dates" = none →
      getPath d ["resource", "dates"] = some (.obj [("date", .s ad)])) ∧
    (∀ dts dateObj, getKey res "dates" = some (.obj dts) →
      getKey dts "date" = some (.obj dateObj) →
      getPath d ["resource", "dates", "date", "#text"] = some (.s reg)) := by
  simp only [article_metadata_transform] at h
  simp only [hres] at h
  cases hd1 : transformDates reg ad res with
  | error e => simp [hd1] at h
  | ok res1 =>
    simp only [hd1] at h
    cases hr1 : transformRest bn issn res1 with
    | error e => simp [hr1] at h
    | ok resF =>
      simp only [hr1, Except.ok.injEq] at h
      subst h
      have hdatesF : getKey resF "dates" = getKey res1 "dates" :=
        transformRest_getKey_dates hr1
      constructor
      · intro hn
        rcases transformDates_ok_cases hd1 with ⟨-, hres1⟩ | ⟨dts, dateObj, hsome, -, -⟩
        · subst hres1
          simp only [getPath, getKey_setKey_same, hdatesF]
        · rw [hn] at hsome; simp at hsome
      · intro dts dateObj hsome hdate
        rcases transformDates_ok_cases hd1 with ⟨hn, -⟩ |
          ⟨dts', dateObj', hsome', hdate', hres1⟩
        · rw [hn] at hsome; simp at hsome
        · rw [hsome] at hsome'
          simp only [Option.some.injEq, JVal.obj.injEq] at hsome'
          subst hsome'
          rw [hdate] at hdate'
          simp only [Option.some.injEq, JVal.obj.injEq] at hdate'
          subst hdate'
          subst hres1
          simp only [getPath, getKey_setKey_same, hdatesF]

/-- Witness for `datacite_dates_overlay` at one raw document with a dates
section and one without. -/
theorem datacite_dates_overlay_witness :
    getPath c5once ["resource", "dates", "date", "#text"] =
      some (JVal.s "2019-05-02T10:30:00Z") ∧
    getPath c8onceNoDates ["resource", "dates"] =
      some (JVal.obj [("date", JVal.s "2020-03-01")]) :=
  ⟨(datacite_dates_overlay "2019-05-02T10:30:00Z" "2019-05-01"
      "micropub.biology.000102" "2578-9430" c5top c5res c5once rfl rfl).2
      [("date", JVal.obj [("#text", JVal.s "2019-05-01T00:00:00Z")])]
      [("#text", JVal.s "2019-05-01T00:00:00Z")] rfl rfl,
   (datacite_dates_overlay "2020-03-04T08:00:00Z" "2020-03-01"
      "micropub.biology.000200" "2578-9430" c8topNoDates c8resNoDates
      c8onceNoDates rfl rfl).1 rfl⟩
